import Mathlib

/-!
# Verification of the indicator pipeline of `multi-stock-portfolio-analysis`

Shallow embedding of `src/main.py` (class `AdvancedStockAnalyzer`).  The
pipeline is purely numeric; floats are modelled by exact rationals `ℚ`, and
the pandas missing-value marker `NaN` by `Option.none`.  Two columns whose
true float values involve square roots (`Rolling_Volatility`, `Z_Score`) and
the Sharpe ratio are represented by an injective rational image of the real
value (the signed square, see `signedSq`), so that every definition stays
computable and every concrete evaluation is exact.  The represented real
value of `signedSq x` is recovered by the strictly monotone (hence
injective) map `y * |y| = x`; equality, sign and NaN-ness of the true
columns coincide with those of the representation.
-/

/-- The signed square `signedSq x = x * |x|`.  `y ↦ y * |y|` is a strictly
monotone bijection of the reals, so representing a real value `r` by
`signedSq r` loses no information; it lets columns whose float value is
`a / sqrt b` be carried in `ℚ` as `signedSq a / b`. -/
def signedSq (x : ℚ) : ℚ := x * |x|

/-- One row of the `yfinance` price DataFrame.  The indicator pipeline of
`calculate_advanced_indicators` reads only the `Close` column; the DataFrame
index (timestamps) is carried along but never inspected by the computation.
The remaining OHLCV columns are never read by any code under verification
and are omitted from the embedding. -/
structure PriceBar where
  timestamp : ℤ
  close : ℚ
deriving DecidableEq

/-- The `Close` column of a price DataFrame. -/
def closesOf (bars : List PriceBar) : List ℚ := bars.map PriceBar.close

/-- Recursive part of `Series.ewm(span, adjust=False).mean()`:
`y_t = α * x_t + (1 - α) * y_(t-1)`. -/
def emaAux (a : ℚ) : List ℚ → ℚ → List ℚ
  | [], _ => []
  | x :: xs, prev =>
    let y := a * x + (1 - a) * prev
    y :: emaAux a xs y

/-- Pandas `Series.ewm(span=n, adjust=False).mean()`: seeded with the first value,
smoothing factor `α = 2 / (span + 1)`, defined from index 0. -/
def ewmMean (span : ℕ) : List ℚ → List ℚ
  | [] => []
  | x :: xs => x :: emaAux (2 / (span + 1)) xs x

/-- Tail of `Series.pct_change()`: each entry is `(c - prev) / prev`. -/
def pctAux (prev : ℚ) : List ℚ → List (Option ℚ)
  | [] => []
  | c :: rest => some ((c - prev) / prev) :: pctAux c rest

/-- Pandas `Series.pct_change()`: `NaN` at index 0, `(c[i] - c[i-1]) / c[i-1]`
afterwards. -/
def pctChange : List ℚ → List (Option ℚ)
  | [] => []
  | c :: rest => none :: pctAux c rest

/-- Mean of a pandas Series over its non-NaN entries: `NaN` when no entry
remains (pandas `Series.mean()`, `skipna=True`). -/
def meanOpt (xs : List ℚ) : Option ℚ :=
  if xs.length = 0 then none else some (xs.sum / (xs.length : ℚ))

/-- Sample variance (`ddof=1`) of a list of rationals; meaningful for
`length ≥ 2`. -/
def svar (xs : List ℚ) : ℚ :=
  (xs.map (fun x => (x - xs.sum / (xs.length : ℚ)) ^ 2)).sum / ((xs.length : ℚ) - 1)

/-- Sample variance of a pandas Series over its non-NaN entries: `NaN` when
fewer than two entries remain (pandas `Series.std()` squared, `ddof=1`). -/
def sampleVarOpt (xs : List ℚ) : Option ℚ :=
  if xs.length < 2 then none else some (svar xs)

/-- One entry of `Series.rolling(window=w).std() ** 2 * 252`: the window at
index `i` is the trailing `w` entries `i+1-w .. i`; the result is `NaN`
unless the window is full and free of `NaN`.  This is the squared
representation of the `Rolling_Volatility` float
`rolling_std * sqrt 252`. -/
def rollingAt (w : ℕ) (xs : List (Option ℚ)) (i : ℕ) : Option ℚ :=
  if i + 1 < w then none
  else
    let win := (xs.take (i + 1)).drop (i + 1 - w)
    if win.all Option.isSome then some (252 * svar (win.filterMap id)) else none

/-- Column `data['Daily_Returns'].rolling(window=20).std() * np.sqrt(252)`, in the
squared representation (`x ↦ x^2` is injective on the nonnegative true
values, and NaN-ness is preserved). -/
def rollingVolSq (w : ℕ) (xs : List (Option ℚ)) : List (Option ℚ) :=
  (List.range xs.length).map (rollingAt w xs)

/-- Embedding of `scipy.stats.zscore(close)` (population `ddof=0`), in the signed-square
representation: the true float value `(c - μ) / σ` is carried as
`signedSq (c - μ) / σ²`; a constant (or singleton) series has `σ = 0` and
yields `NaN` (numpy `0/0`) at every position. -/
def zscoreCol (cs : List ℚ) : List (Option ℚ) :=
  let m := cs.sum / (cs.length : ℚ)
  let v := (cs.map (fun c => (c - m) ^ 2)).sum / (cs.length : ℚ)
  cs.map (fun c => if v = 0 then none else some (signedSq (c - m) / v))

/-- Pandas `Series.cumprod()` with `skipna=True`: `NaN` entries stay `NaN`
and are skipped by the running product `acc`. -/
def cumprodAux : List (Option ℚ) → ℚ → List (Option ℚ)
  | [], _ => []
  | none :: xs, acc => none :: cumprodAux xs acc
  | some x :: xs, acc =>
    let a := acc * x
    some a :: cumprodAux xs a

/-- Column `(1 + data['Daily_Returns']).cumprod() - 1` from a close series. -/
def cumulativeReturn (cs : List ℚ) : List (Option ℚ) :=
  (cumprodAux ((pctChange cs).map (Option.map (fun r => 1 + r))) 1).map
    (Option.map (fun x => x - 1))

/-- The columns added by `calculate_advanced_indicators` (lines 54-66 of
`src/main.py`), each a pure function of the `Close` column; `bars` is the
untouched input DataFrame carried through `data.copy()`. -/
structure IndicatorData where
  bars : List PriceBar
  EMA_20 : List ℚ
  EMA_50 : List ℚ
  MACD_Line : List ℚ
  Signal_Line : List ℚ
  MACD_Histogram : List ℚ
  Daily_Returns : List (Option ℚ)
  Rolling_Volatility : List (Option ℚ)
  Z_Score : List (Option ℚ)
  Cumulative_Return : List (Option ℚ)
deriving DecidableEq

/-- Column `data['MACD_Line']`: EMA(12) minus EMA(26) of close. -/
def macdLine (cs : List ℚ) : List ℚ :=
  List.zipWith (fun x y => x - y) (ewmMean 12 cs) (ewmMean 26 cs)

/-- Column `data['Signal_Line'] = data['MACD_Line'].ewm(span=9, adjust=False).mean()`. -/
def signalLine (cs : List ℚ) : List ℚ := ewmMean 9 (macdLine cs)

/-- Column `data['MACD_Histogram'] = data['MACD_Line'] - data['Signal_Line']`. -/
def macdHistogram (cs : List ℚ) : List ℚ :=
  List.zipWith (fun x y => x - y) (macdLine cs) (signalLine cs)

/-- Embedding of `calculate_advanced_indicators` on one ticker's DataFrame
(`src/main.py` lines 43-68).  The method performs no validation of any
kind — no length check, no timestamp check — it unconditionally computes
every column. -/
def calcIndicators (bars : List PriceBar) : IndicatorData :=
  let cs := closesOf bars
  { bars := bars
    EMA_20 := ewmMean 20 cs
    EMA_50 := ewmMean 50 cs
    MACD_Line := macdLine cs
    Signal_Line := signalLine cs
    MACD_Histogram := macdHistogram cs
    Daily_Returns := pctChange cs
    Rolling_Volatility := rollingVolSq 20 (pctChange cs)
    Z_Score := zscoreCol cs
    Cumulative_Return := cumulativeReturn cs }

/-- Running part of `Series.cummax()`. -/
def cummaxAux (m : ℚ) : List ℚ → List ℚ
  | [] => []
  | x :: xs =>
    let m2 := max m x
    m2 :: cummaxAux m2 xs

/-- Pandas `prices.cummax()`. -/
def cummax : List ℚ → List ℚ
  | [] => []
  | x :: xs => x :: cummaxAux x xs

/-- Series `(prices - cumulative_max) / cumulative_max` of `_calculate_max_drawdown`. -/
def drawdowns (prices : List ℚ) : List ℚ :=
  List.zipWith (fun p m => (p - m) / m) prices (cummax prices)

/-- Embedding of `_calculate_max_drawdown` (`src/main.py` lines 107-119): minimum of the
drawdown series; `none` models the `NaN` that pandas `Series.min()` returns
for an empty input. -/
def calcMaxDrawdown (prices : List ℚ) : Option ℚ :=
  (drawdowns prices).min?

/-- Default `risk_free_rate=0.02` of `_calculate_sharpe_ratio`. -/
def riskFreeDefault : ℚ := 2 / 100

/-- Embedding of `_calculate_sharpe_ratio` (`src/main.py` lines 91-105), in the
signed-square representation: the float result is
`((1 + mean)^252 - 1 - rf) / (std * sqrt 252)`, carried as
`signedSq numerator / (252 * variance)`.  `none` models every non-finite
float outcome: `NaN` when the input has fewer than two valid returns
(pandas `std` is `NaN`), and `±inf`/`NaN` from the division by zero when
the standard deviation — hence the annualized volatility — is exactly 0.
No exception is raised in any case. -/
def calcSharpe (returns : List (Option ℚ)) (rf : ℚ) : Option ℚ :=
  let r := returns.filterMap id
  match meanOpt r, sampleVarOpt r with
  | some m, some v =>
    if v = 0 then none
    else some (signedSq ((1 + m) ^ 252 - 1 - rf) / (252 * v))
  | _, _ => none

/-- The entries of one ticker's record in `portfolio_analysis`
(`src/main.py` lines 70-89) that are expressible over `ℚ`.
`Total_Return` is `data['Cumulative_Return'].iloc[-1]`: the outer `Option`
is `none` exactly when the frame is empty (where `iloc[-1]` raises a bare
`IndexError`), the inner one models `NaN`.  `Annualized_Return`
(non-integer float power `252 / len`) and `Volatility` (mean of the square
roots in `Rolling_Volatility`) take irrational values and are not carried
in the rational embedding; both are plain float arithmetic with no
validation or failure path of their own. -/
structure PortfolioEntry where
  Total_Return : Option (Option ℚ)
  Sharpe : Option ℚ
  Max_Drawdown : Option ℚ
deriving DecidableEq

/-- The `portfolio_analysis` record for one ticker's DataFrame. -/
def portfolioEntry (bars : List PriceBar) : PortfolioEntry :=
  let data := calcIndicators bars
  { Total_Return := data.Cumulative_Return.getLast?
    Sharpe := calcSharpe data.Daily_Returns riskFreeDefault
    Max_Drawdown := calcMaxDrawdown (closesOf data.bars) }

/-- The mutable state of an `AdvancedStockAnalyzer` instance: the fetched
price DataFrames, one per ticker (tickers abstracted to `ℕ` ids). -/
structure AnalyzerState where
  stock_data : ℕ → List PriceBar

/-- Embedding of `calculate_advanced_indicators` as a method on the analyzer state.
Line 53 copies the stored DataFrame (`.copy()`), every column assignment
lands on the local copy `data`, and the state is returned unchanged. -/
def calcIndicatorsMethod (s : AnalyzerState) (ticker : ℕ) :
    IndicatorData × AnalyzerState :=
  let data := s.stock_data ticker
  (calcIndicators data, s)

/-- Any number of indicator computations, threading the analyzer state. -/
def runCalls (s : AnalyzerState) : List ℕ → AnalyzerState
  | [] => s
  | t :: ts => runCalls (calcIndicatorsMethod s t).2 ts

/-- Modelled from the spec: the RSI(14) computation is described in §4 of
the spec (and its Bollinger/SMA companions in the original 295-line source)
but is absent from the `src/main.py` snapshot under verification.  The
trailing window of 15 closes feeding the 14 day-over-day deltas at index
`i ≥ 14`. -/
def rsiWindow (cs : List ℚ) (i : ℕ) : List ℚ :=
  (cs.take (i + 1)).drop (i - 14)

/-- Modelled from the spec: the 14 day-over-day close deltas at index `i`. -/
def rsDeltas (cs : List ℚ) (i : ℕ) : List ℚ :=
  List.zipWith (fun x y => x - y) (rsiWindow cs i).tail (rsiWindow cs i)

/-- Modelled from the spec: `mean(gains, 14)`, the positive deltas averaged
over the 14-delta window. -/
def rsGain (cs : List ℚ) (i : ℕ) : ℚ :=
  ((rsDeltas cs i).map (fun d => max d 0)).sum / 14

/-- Modelled from the spec: `mean(losses, 14)`, the negated negative deltas
averaged over the 14-delta window. -/
def rsLoss (cs : List ℚ) (i : ℕ) : ℚ :=
  ((rsDeltas cs i).map (fun d => max (-d) 0)).sum / 14

/-- Modelled from the spec: RSI(14) at index `i`:
`100 - 100 / (1 + RS)` with `RS = mean(gains,14) / mean(losses,14)`,
defined to be `100` when the mean loss is 0 (spec §4 edge policy), and the
not-yet-available marker before index 14 or past the series. -/
def rsiAt (cs : List ℚ) (i : ℕ) : Option ℚ :=
  if 14 ≤ i ∧ i < cs.length then
    some
      (if rsLoss cs i = 0 then 100
       else 100 - 100 / (1 + rsGain cs i / rsLoss cs i))
  else none

/-- Modelled from the spec: the RSI(14) column. -/
def rsiCol (cs : List ℚ) : List (Option ℚ) :=
  (List.range cs.length).map (rsiAt cs)

/-- Shorthand for a price bar. -/
def mkBar (t : ℤ) (c : ℚ) : PriceBar := ⟨t, c⟩

/-- A single-bar price series (spec example: series of length 1). -/
def oneBarSeries : List PriceBar := [mkBar 0 100]

/-- A three-bar series with constant closes 100 (spec example). -/
def threeFlatSeries : List PriceBar :=
  [mkBar 0 100, mkBar 1 100, mkBar 2 100]

/-- A seven-bar series whose timestamps repeat at index 5 (`4` appears at
indices 4 and 5): a duplicate-timestamp, non-monotonic series. -/
def dupStampSeries : List PriceBar :=
  [mkBar 0 100, mkBar 1 100, mkBar 2 100, mkBar 3 100, mkBar 4 100,
   mkBar 4 100, mkBar 5 100]

/-- Two three-bar series agreeing on the bar at index 0 but with different
later closes: [1, 2, 3] and [1, 2, 100]. -/
def zProbeA : List PriceBar := [mkBar 0 1, mkBar 1 2, mkBar 2 3]

/-- Companion of `zProbeA`, differing only at index 2. -/
def zProbeB : List PriceBar := [mkBar 0 1, mkBar 1 2, mkBar 2 100]

/-- A series of `k` bars with ascending timestamps and constant close `c`. -/
def constSeries (c : ℚ) (k : ℕ) : List PriceBar :=
  (List.range k).map (fun i => mkBar (Int.ofNat i) c)

/-! ## Supporting lemmas -/

theorem length_emaAux (a : ℚ) :
    ∀ (xs : List ℚ) (prev : ℚ), (emaAux a xs prev).length = xs.length := by
  intro xs
  induction xs with
  | nil => intro prev; rfl
  | cons x xs ih => intro prev; simpa [emaAux] using ih _

theorem length_ewmMean (span : ℕ) (xs : List ℚ) :
    (ewmMean span xs).length = xs.length := by
  cases xs with
  | nil => rfl
  | cons x xs => simpa [ewmMean] using length_emaAux _ xs x

theorem length_pctAux :
    ∀ (xs : List ℚ) (prev : ℚ), (pctAux prev xs).length = xs.length := by
  intro xs
  induction xs with
  | nil => intro prev; rfl
  | cons x xs ih => intro prev; simpa [pctAux] using ih _

theorem length_pctChange (xs : List ℚ) :
    (pctChange xs).length = xs.length := by
  cases xs with
  | nil => rfl
  | cons x xs => simpa [pctChange] using length_pctAux xs x

theorem length_rollingVolSq (w : ℕ) (xs : List (Option ℚ)) :
    (rollingVolSq w xs).length = xs.length := by
  simp [rollingVolSq]

theorem emaAux_take (a : ℚ) :
    ∀ (xs : List ℚ) (k : ℕ) (prev : ℚ),
      (emaAux a xs prev).take k = emaAux a (xs.take k) prev := by
  intro xs
  induction xs with
  | nil => intro k prev; simp [emaAux]
  | cons x xs ih =>
    intro k prev
    cases k with
    | zero => simp [emaAux]
    | succ k => simp [emaAux, ih]

theorem ewmMean_take (span : ℕ) (k : ℕ) (xs : List ℚ) :
    (ewmMean span xs).take k = ewmMean span (xs.take k) := by
  cases xs with
  | nil => simp [ewmMean]
  | cons x xs =>
    cases k with
    | zero => simp [ewmMean]
    | succ k => simp [ewmMean, emaAux_take]

theorem pctAux_take :
    ∀ (xs : List ℚ) (k : ℕ) (prev : ℚ),
      (pctAux prev xs).take k = pctAux prev (xs.take k) := by
  intro xs
  induction xs with
  | nil => intro k prev; simp [pctAux]
  | cons x xs ih =>
    intro k prev
    cases k with
    | zero => simp [pctAux]
    | succ k => simp [pctAux, ih]

theorem pctChange_take (k : ℕ) (xs : List ℚ) :
    (pctChange xs).take k = pctChange (xs.take k) := by
  cases xs with
  | nil => simp [pctChange]
  | cons x xs =>
    cases k with
    | zero => simp [pctChange]
    | succ k => simp [pctChange, pctAux_take]

theorem cumprodAux_take :
    ∀ (xs : List (Option ℚ)) (k : ℕ) (acc : ℚ),
      (cumprodAux xs acc).take k = cumprodAux (xs.take k) acc := by
  intro xs
  induction xs with
  | nil => intro k acc; simp [cumprodAux]
  | cons x xs ih =>
    intro k acc
    cases x with
    | none =>
      cases k with
      | zero => simp [cumprodAux]
      | succ k => simp [cumprodAux, ih]
    | some v =>
      cases k with
      | zero => simp [cumprodAux]
      | succ k => simp [cumprodAux, ih]

theorem cumulativeReturn_take (k : ℕ) (xs : List ℚ) :
    (cumulativeReturn xs).take k = cumulativeReturn (xs.take k) := by
  simp [cumulativeReturn, ← List.map_take, cumprodAux_take, pctChange_take]

theorem getElem?_eq_of_take_succ_eq {α : Type} {l l' : List α} {i : ℕ}
    (h : l.take (i + 1) = l'.take (i + 1)) : l[i]? = l'[i]? := by
  have h1 : (l.take (i + 1))[i]? = l[i]? := by
    rw [List.getElem?_take]
    simp
  have h2 : (l'.take (i + 1))[i]? = l'[i]? := by
    rw [List.getElem?_take]
    simp
  rw [← h1, ← h2, h]

theorem signedSq_strictMono : StrictMono signedSq := by
  intro x y hxy
  unfold signedSq
  rcases abs_cases x with ⟨hx, hx2⟩ | ⟨hx, hx2⟩ <;>
    rcases abs_cases y with ⟨hy, hy2⟩ | ⟨hy, hy2⟩ <;>
      nlinarith

theorem emaAux_const (a c : ℚ) :
    ∀ n : ℕ, emaAux a (List.replicate n c) c = List.replicate n c := by
  intro n
  induction n with
  | zero => rfl
  | succ n ih =>
    have h : a * c + (1 - a) * c = c := by ring
    simp [List.replicate_succ, emaAux, h, ih]

theorem ewmMean_const (span : ℕ) (c : ℚ) (k : ℕ) :
    ewmMean span (List.replicate k c) = List.replicate k c := by
  cases k with
  | zero => rfl
  | succ k => simp [List.replicate_succ, ewmMean, emaAux_const]

theorem closesOf_constSeries (c : ℚ) (k : ℕ) :
    closesOf (constSeries c k) = List.replicate k c := by
  simp only [closesOf, constSeries, List.map_map]
  have h : (PriceBar.close ∘ fun i : ℕ => mkBar (Int.ofNat i) c) = fun _ : ℕ => c := rfl
  rw [h, List.map_const']
  simp

/-! ## Claim C7 -/

/-- C7: for every constant close series, the EMA(n) column (exponential
mean with smoothing factor 2/(n+1), seeded with the first close value,
defined from bar 0) equals that constant at every index, for each span used
by the pipeline (20 and 50). -/
theorem c7_ema_constant (c : ℚ) (k : ℕ) :
    (calcIndicators (constSeries c k)).EMA_20 = List.replicate k c ∧
    (calcIndicators (constSeries c k)).EMA_50 = List.replicate k c := by
  constructor <;> simp [calcIndicators, closesOf_constSeries, ewmMean_const]

/-! ## Claim C9 -/

/-- C9: `calculate_advanced_indicators` builds its derived columns on a
fresh copy (`data = ...copy()`, line 53 of `src/main.py`) and never mutates
the stored price data: after any number of compute calls, every ticker's
`price_data` in the analyzer state is identical to what it was before. -/
theorem c9_compute_does_not_mutate (s : AnalyzerState) (ts : List ℕ) :
    (runCalls s ts).stock_data = s.stock_data := by
  induction ts generalizing s with
  | nil => rfl
  | cons t ts ih => simpa [runCalls, calcIndicatorsMethod] using ih s

/-! ## Claim C10 -/

/-- C10: for every non-empty price series, `MACD_Line` and `MACD_Histogram`
are 0 at index 0: both EMAs are seeded with the first close, so
EMA12 and EMA26 coincide there, and the signal line starts equal to the
MACD line. -/
theorem c10_macd_starts_at_zero (bars : List PriceBar) (h : bars ≠ []) :
    (calcIndicators bars).MACD_Line[0]? = some 0 ∧
    (calcIndicators bars).MACD_Histogram[0]? = some 0 := by
  cases bars with
  | nil => exact absurd rfl h
  | cons b t =>
    simp [calcIndicators, closesOf, macdLine, signalLine, macdHistogram,
      ewmMean]

/-- Witness for C10 at the concrete one-bar series. -/
theorem c10_macd_starts_at_zero_witness :
    (calcIndicators oneBarSeries).MACD_Line[0]? = some 0 ∧
    (calcIndicators oneBarSeries).MACD_Histogram[0]? = some 0 :=
  c10_macd_starts_at_zero oneBarSeries (by simp [oneBarSeries])

/-! ## Claim C6 -/

theorem length_cummaxAux (xs : List ℚ) :
    ∀ m : ℚ, (cummaxAux m xs).length = xs.length := by
  induction xs with
  | nil => intro m; rfl
  | cons x xs ih => intro m; simpa [cummaxAux] using ih _

theorem length_cummax (xs : List ℚ) : (cummax xs).length = xs.length := by
  cases xs with
  | nil => rfl
  | cons x xs => simpa [cummax] using length_cummaxAux xs x

theorem drawdowns_aux_nonpos (xs : List ℚ) :
    ∀ m : ℚ, (∀ p ∈ xs, 0 < p) → 0 < m →
      ∀ y ∈ List.zipWith (fun p q => (p - q) / q) xs (cummaxAux m xs),
        y ≤ 0 := by
  induction xs with
  | nil => intro m _ _ y hy; simp [cummaxAux] at hy
  | cons x xs ih =>
    intro m hpos hm y hy
    simp only [cummaxAux, List.zipWith_cons_cons, List.mem_cons] at hy
    rcases hy with rfl | hy
    · refine div_nonpos_iff.mpr (Or.inr ⟨sub_nonpos.mpr (le_max_right m x), ?_⟩)
      exact le_of_lt (lt_of_lt_of_le hm (le_max_left m x))
    · exact ih (max m x) (fun p hp => hpos p (List.mem_cons_of_mem x hp))
        (lt_of_lt_of_le hm (le_max_left m x)) y hy

theorem drawdowns_nonpos (prices : List ℚ) (hpos : ∀ p ∈ prices, 0 < p) :
    ∀ y ∈ drawdowns prices, y ≤ 0 := by
  cases prices with
  | nil => intro y hy; simp [drawdowns] at hy
  | cons x xs =>
    intro y hy
    simp only [drawdowns, cummax, List.zipWith_cons_cons, List.mem_cons] at hy
    rcases hy with rfl | hy
    · simp
    · exact drawdowns_aux_nonpos xs x
        (fun p hp => hpos p (List.mem_cons_of_mem x hp))
        (hpos x (List.mem_cons_self x xs)) y hy

theorem cummaxAux_of_chain (xs : List ℚ) :
    ∀ m : ℚ, List.Chain' (· ≤ ·) (m :: xs) → cummaxAux m xs = xs := by
  induction xs with
  | nil => intro m _; rfl
  | cons x xs ih =>
    intro m h
    rw [List.chain'_cons] at h
    simp [cummaxAux, max_eq_right h.1, ih x h.2]

theorem zip_dd_self (xs : List ℚ) :
    ∀ y ∈ List.zipWith (fun p q => (p - q) / q) xs xs, y = 0 := by
  induction xs with
  | nil => intro y hy; simp at hy
  | cons x xs ih =>
    intro y hy
    simp only [List.zipWith_cons_cons, List.mem_cons] at hy
    rcases hy with rfl | hy
    · simp
    · exact ih y hy

/-- C6: for every non-empty price series with positive closes,
`_calculate_max_drawdown` returns the minimum over `i` of
`(close[i] - running_max[0..i]) / running_max[0..i]`; the result is always
≤ 0, is 0 when the close series is monotonically non-decreasing, and is
-0.20 for the series [100, 90, 80]. -/
theorem c6_max_drawdown (prices : List ℚ) (hne : prices ≠ [])
    (hpos : ∀ p ∈ prices, 0 < p) :
    (∃ d, calcMaxDrawdown prices = some d ∧ d ≤ 0 ∧
      (List.Chain' (· ≤ ·) prices → d = 0)) ∧
    calcMaxDrawdown [100, 90, 80] = some (-(1 / 5)) := by
  constructor
  · have hlen : (drawdowns prices).length = prices.length := by
      simp [drawdowns, length_cummax]
    have hdne : drawdowns prices ≠ [] := by
      intro h
      exact hne (List.length_eq_zero.mp (by rw [← hlen, h]; rfl))
    cases hd : (drawdowns prices).min? with
    | none => exact absurd (List.min?_eq_none_iff.mp hd) hdne
    | some d =>
      refine ⟨d, hd, ?_, ?_⟩
      · exact drawdowns_nonpos prices hpos d
          (List.min?_mem (fun a b => min_choice a b) hd)
      · intro hchain
        have hmem := List.min?_mem (fun a b => min_choice a b) hd
        have hdd : drawdowns prices =
            List.zipWith (fun p q => (p - q) / q) prices prices := by
          cases prices with
          | nil => rfl
          | cons x xs =>
            simp [drawdowns, cummax, cummaxAux_of_chain xs x hchain]
        rw [hdd] at hmem
        exact zip_dd_self prices d hmem
  · norm_num [calcMaxDrawdown, drawdowns, cummax, cummaxAux,
      List.min?_cons, List.min?_nil, min_def]

/-- Witness for C6 at the concrete series [100, 90, 80]. -/
theorem c6_max_drawdown_witness :
    (∃ d, calcMaxDrawdown [(100 : ℚ), 90, 80] = some d ∧ d ≤ 0 ∧
      (List.Chain' (· ≤ ·) [(100 : ℚ), 90, 80] → d = 0)) ∧
    calcMaxDrawdown [100, 90, 80] = some (-(1 / 5)) :=
  c6_max_drawdown [100, 90, 80] (by simp) (by norm_num)

/-! ## Claim C5 -/

/-- C5: `_calculate_sharpe_ratio` computes
`((1 + mean)^252 - 1 - risk_free_rate) / (std * sqrt 252)` (here in the
signed-square representation of that float), with the risk-free rate
defaulting to 0.02; when the annualized volatility is exactly 0 the
division by zero yields the non-finite sentinel (`none`) instead of
crashing, for the caller to detect. -/
theorem c5_sharpe_formula (returns : List (Option ℚ)) (rf m v : ℚ)
    (hm : meanOpt (returns.filterMap id) = some m)
    (hv : sampleVarOpt (returns.filterMap id) = some v) :
    (calcSharpe returns rf =
      if v = 0 then none
      else some (signedSq ((1 + m) ^ 252 - 1 - rf) / (252 * v))) ∧
    riskFreeDefault = 2 / 100 := by
  constructor
  · simp only [calcSharpe, hm, hv]
  · rfl

/-- Witness for C5: two zero returns have mean 0 and sample variance 0, so
the Sharpe ratio is the non-finite sentinel. -/
theorem c5_sharpe_formula_witness :
    calcSharpe [some 0, some 0] riskFreeDefault = none := by
  have h := c5_sharpe_formula [some 0, some 0] riskFreeDefault 0 0
    (by norm_num [meanOpt, List.filterMap_cons])
    (by norm_num [sampleVarOpt, svar, List.filterMap_cons])
  simpa using h.1

/-! ## Claim C4 -/

theorem rsGain_nonneg (cs : List ℚ) (i : ℕ) : 0 ≤ rsGain cs i := by
  unfold rsGain
  refine div_nonneg (List.sum_nonneg ?_) (by norm_num)
  intro x hx
  simp only [List.mem_map] at hx
  obtain ⟨d, _, rfl⟩ := hx
  exact le_max_right d 0

theorem rsLoss_nonneg (cs : List ℚ) (i : ℕ) : 0 ≤ rsLoss cs i := by
  unfold rsLoss
  refine div_nonneg (List.sum_nonneg ?_) (by norm_num)
  intro x hx
  simp only [List.mem_map] at hx
  obtain ⟨d, _, rfl⟩ := hx
  exact le_max_right (-d) 0

/-- C4 (spec-modelled, RSI is absent from `src/main.py`): the RSI(14)
column is `100 - 100/(1+RS)` with `RS = mean(gains,14)/mean(losses,14)`
from day-over-day close deltas, its value is 100 when the mean loss is 0
(never a non-numeric value), and it lies in [0, 100] at every defined
index, for any input series. -/
theorem c4_rsi_bounded (cs : List ℚ) (i : ℕ) (h14 : 14 ≤ i)
    (hlen : i < cs.length) :
    (rsiCol cs)[i]? =
      some (some (if rsLoss cs i = 0 then 100
        else 100 - 100 / (1 + rsGain cs i / rsLoss cs i))) ∧
    (rsLoss cs i = 0 → rsiAt cs i = some 100) ∧
    ∀ v, rsiAt cs i = some v → 0 ≤ v ∧ v ≤ 100 := by
  have hcond : 14 ≤ i ∧ i < cs.length := ⟨h14, hlen⟩
  refine ⟨?_, ?_, ?_⟩
  · simp [rsiCol, List.getElem?_map, List.getElem?_range hlen, rsiAt, hcond]
  · intro h0
    simp [rsiAt, hcond, h0]
  · intro v hv
    rw [rsiAt, if_pos hcond] at hv
    have hv2 := Option.some.inj hv
    by_cases h0 : rsLoss cs i = 0
    · rw [if_pos h0] at hv2
      subst hv2
      norm_num
    · rw [if_neg h0] at hv2
      subst hv2
      have hl : 0 < rsLoss cs i :=
        lt_of_le_of_ne (rsLoss_nonneg cs i) (Ne.symm h0)
      have hg : 0 ≤ rsGain cs i / rsLoss cs i :=
        div_nonneg (rsGain_nonneg cs i) (le_of_lt hl)
      have hpos : (0 : ℚ) < 1 + rsGain cs i / rsLoss cs i := by linarith
      have hup : 100 / (1 + rsGain cs i / rsLoss cs i) ≤ 100 := by
        rw [div_le_iff₀ hpos]
        nlinarith
      have hlow : 0 < 100 / (1 + rsGain cs i / rsLoss cs i) :=
        div_pos (by norm_num) hpos
      constructor <;> linarith

/-- Witness for C4: an ascending 15-close series has zero mean loss at
index 14, so its RSI there is 100. -/
theorem c4_rsi_bounded_witness :
    rsiAt [1, 2, 3, 4, 5, 6, 7, 8, 9, 10, 11, 12, 13, 14, 15] 14 =
      some 100 := by
  have h := c4_rsi_bounded
    [1, 2, 3, 4, 5, 6, 7, 8, 9, 10, 11, 12, 13, 14, 15] 14
    (by norm_num) (by norm_num)
  exact h.2.1 (by norm_num [rsLoss, rsDeltas, rsiWindow])

/-! ## Claim C2 -/

theorem length_cumprodAux :
    ∀ (xs : List (Option ℚ)) (acc : ℚ), (cumprodAux xs acc).length = xs.length := by
  intro xs
  induction xs with
  | nil => intro acc; rfl
  | cons x xs ih =>
    intro acc
    cases x with
    | none => simpa [cumprodAux] using ih _
    | some v => simpa [cumprodAux] using ih _

theorem getLast?_cons_ne {α : Type} (a : α) {l : List α} (h : l ≠ []) :
    (a :: l).getLast? = l.getLast? := by
  cases l with
  | nil => exact absurd rfl h
  | cons b t => exact List.getLast?_cons_cons

theorem cumprod_pct_getLast (rest : List ℚ) :
    ∀ (prev acc l : ℚ), prev ≠ 0 → (∀ c ∈ rest, c ≠ 0) →
      rest.getLast? = some l →
      (cumprodAux ((pctAux prev rest).map (Option.map (fun r => 1 + r)))
          acc).getLast? = some (some (acc * (l / prev))) := by
  induction rest with
  | nil => intro prev acc l _ _ h; simp at h
  | cons x xs ih =>
    intro prev acc l hprev hnz hl
    cases xs with
    | nil =>
      simp only [List.getLast?_singleton, Option.some.injEq] at hl
      subst hl
      simp only [pctAux, List.map_cons, List.map_nil, cumprodAux,
        List.getLast?_singleton, Option.some.injEq, Option.map_some]
      congr 1
      field_simp
    | cons y ys =>
      rw [List.getLast?_cons_cons] at hl
      have hx : x ≠ 0 := hnz x (List.mem_cons_self x (y :: ys))
      have hnz2 : ∀ c ∈ y :: ys, c ≠ 0 :=
        fun c hc => hnz c (List.mem_cons_of_mem x hc)
      have ihx := ih x (acc * (1 + (x - prev) / prev)) l hx hnz2 hl
      have hne : cumprodAux
          ((pctAux x (y :: ys)).map (Option.map (fun r => 1 + r)))
          (acc * (1 + (x - prev) / prev)) ≠ [] := by
        intro hemp
        have := congrArg List.length hemp
        simp [length_cumprodAux, pctAux, length_pctAux] at this
      have e1 : pctAux prev (x :: y :: ys) =
          some ((x - prev) / prev) :: pctAux x (y :: ys) := rfl
      have e2 : ∀ (L : List (Option ℚ)) (z A : ℚ),
          cumprodAux (some z :: L) A = some (A * z) :: cumprodAux L (A * z) :=
        fun L z A => rfl
      rw [e1, List.map_cons]
      simp only [Option.map_some']
      rw [e2, getLast?_cons_ne _ hne, ihx]
      congr 2
      field_simp
      ring

/-- C2 as stated is false on the code: for the 3-bar all-100 series the
`Cumulative_Return` column is `[NaN, 0, 0]` — `pct_change` puts `NaN` at
index 0, `1 + NaN = NaN`, and pandas `cumprod` (skipna) leaves the `NaN`
in place — so the value at index 0 is the `NaN` marker, not 0. -/
theorem c2_counterexample :
    (calcIndicators threeFlatSeries).Cumulative_Return =
      [none, some 0, some 0] ∧
    (calcIndicators threeFlatSeries).Cumulative_Return[0]? ≠
      some (some 0) := by
  constructor
  · norm_num [calcIndicators, threeFlatSeries, mkBar, closesOf,
      cumulativeReturn, pctChange, pctAux, cumprodAux]
  · norm_num [calcIndicators, threeFlatSeries, mkBar, closesOf,
      cumulativeReturn, pctChange, pctAux, cumprodAux]
    simp

/-- C2 (amended): for every price series of length ≥ 2 with no zero
closes, `Cumulative_Return` is the `NaN` marker at index 0 and equals
`final_close / first_close - 1` at the last index. -/
theorem c2_cumulative_return (bars : List PriceBar) (h2 : 2 ≤ bars.length)
    (hnz : ∀ b ∈ bars, PriceBar.close b ≠ 0) (c0 cLast : ℚ)
    (hf : (closesOf bars).head? = some c0)
    (hl : (closesOf bars).getLast? = some cLast) :
    (calcIndicators bars).Cumulative_Return[0]? = some none ∧
    (calcIndicators bars).Cumulative_Return.getLast? =
      some (some (cLast / c0 - 1)) := by
  have hcs : ∀ c ∈ closesOf bars, c ≠ 0 := by
    intro c hc
    obtain ⟨b, hb, rfl⟩ := List.mem_map.mp hc
    exact hnz b hb
  have hlen : 2 ≤ (closesOf bars).length := by
    simpa [closesOf] using h2
  obtain ⟨x, cs', hx⟩ : ∃ x cs', closesOf bars = x :: cs' := by
    cases h : closesOf bars with
    | nil => rw [h] at hlen; norm_num at hlen
    | cons x cs' => exact ⟨x, cs', rfl⟩
  have hx0 : x = c0 := by
    rw [hx] at hf
    exact (Option.some.inj hf).symm ▸ rfl
  have hcs' : cs' ≠ [] := by
    intro hemp
    rw [hx, hemp] at hlen
    norm_num at hlen
  have hxnz : x ≠ 0 := hcs x (hx ▸ List.mem_cons_self x cs')
  have hcs'nz : ∀ c ∈ cs', c ≠ 0 :=
    fun c hc => hcs c (hx ▸ List.mem_cons_of_mem x hc)
  have hlast : cs'.getLast? = some cLast := by
    rw [hx, getLast?_cons_ne x hcs'] at hl
    exact hl
  constructor
  · show (cumulativeReturn (closesOf bars))[0]? = some none
    rw [hx]
    simp [cumulativeReturn, pctChange, cumprodAux]
  · show (cumulativeReturn (closesOf bars)).getLast? =
      some (some (cLast / c0 - 1))
    rw [hx]
    have hmain := cumprod_pct_getLast cs' x 1 cLast hxnz hcs'nz hlast
    have hne : cumprodAux
        ((pctAux x cs').map (Option.map (fun r => 1 + r))) 1 ≠ [] := by
      intro hemp
      have := congrArg List.length hemp
      simp [length_cumprodAux, length_pctAux] at this
      exact hcs' this
    have e1 : pctChange (x :: cs') = none :: pctAux x cs' := rfl
    have e2 : ∀ (L : List (Option ℚ)) (A : ℚ),
        cumprodAux (none :: L) A = none :: cumprodAux L A := fun L A => rfl
    have hne2 : List.map (Option.map fun t => t - 1)
        (cumprodAux ((pctAux x cs').map (Option.map fun r => 1 + r)) 1) ≠
          [] := by
      simpa using hne
    rw [cumulativeReturn, e1, List.map_cons]
    simp only [Option.map_none']
    rw [e2, List.map_cons, getLast?_cons_ne _ hne2, List.getLast?_map, hmain]
    rw [hx0]
    simp

/-- Witness for C2 (amended) at the two-bar series [100, 110]. -/
theorem c2_cumulative_return_witness :
    (calcIndicators [mkBar 0 100, mkBar 1 110]).Cumulative_Return[0]? =
      some none ∧
    (calcIndicators [mkBar 0 100, mkBar 1 110]).Cumulative_Return.getLast? =
      some (some ((110 : ℚ) / 100 - 1)) :=
  c2_cumulative_return [mkBar 0 100, mkBar 1 110] (by norm_num)
    (by
      intro b hb
      simp only [List.mem_cons, List.not_mem_nil, or_false] at hb
      rcases hb with rfl | rfl <;> norm_num [mkBar])
    100 110 (by norm_num [closesOf, mkBar]) (by norm_num [closesOf, mkBar])

/-! ## Claim C1 -/

/-- C1 as stated is false on the code: neither
`calculate_advanced_indicators` nor `portfolio_analysis` contains any
input validation, and no `InsufficientData` error exists anywhere in
`src/main.py`.  On the single-bar series the pipeline happily produces a
full indicator frame (with `NaN` markers in the derived columns) and a
portfolio record with `NaN` total return and Sharpe ratio — partial output
instead of a rejection. -/
theorem c1_counterexample :
    (calcIndicators oneBarSeries).EMA_20 = [100] ∧
    (calcIndicators oneBarSeries).Daily_Returns = [none] ∧
    (calcIndicators oneBarSeries).Rolling_Volatility = [none] ∧
    (calcIndicators oneBarSeries).Z_Score = [none] ∧
    (calcIndicators oneBarSeries).Cumulative_Return = [none] ∧
    portfolioEntry oneBarSeries =
      { Total_Return := some none, Sharpe := none, Max_Drawdown := some 0 } := by
  refine ⟨?_, ?_, ?_, ?_, ?_, ?_⟩ <;>
    norm_num [calcIndicators, oneBarSeries, mkBar, closesOf, ewmMean,
      emaAux, pctChange, pctAux, rollingVolSq, rollingAt, zscoreCol,
      signedSq, cumulativeReturn, cumprodAux, portfolioEntry, calcSharpe,
      meanOpt, sampleVarOpt, svar, calcMaxDrawdown, drawdowns, cummax,
      cummaxAux, riskFreeDefault, List.min?_cons, List.min?_nil,
      List.filterMap_cons, List.range_succ]

/-- C1 (amended): the pipeline performs no input-length validation and has
no `InsufficientData` error.  An empty series yields an indicator frame of
empty columns; a single-bar series (positive close) yields columns of
length 1 in which every derived entry (`Daily_Returns`,
`Rolling_Volatility`, `Z_Score`, `Cumulative_Return`) is the `NaN` marker,
and a portfolio record with `NaN` total return, non-finite Sharpe ratio
and zero max drawdown — never an error. -/
theorem c1_no_length_validation (bars : List PriceBar) (b : PriceBar)
    (hb : bars = [b]) (hpos : 0 < b.close) :
    (calcIndicators bars).EMA_20 = [b.close] ∧
    (calcIndicators bars).Daily_Returns = [none] ∧
    (calcIndicators bars).Rolling_Volatility = [none] ∧
    (calcIndicators bars).Z_Score = [none] ∧
    (calcIndicators bars).Cumulative_Return = [none] ∧
    portfolioEntry bars =
      { Total_Return := some none, Sharpe := none, Max_Drawdown := some 0 } ∧
    calcIndicators [] =
      { bars := [], EMA_20 := [], EMA_50 := [], MACD_Line := [],
        Signal_Line := [], MACD_Histogram := [], Daily_Returns := [],
        Rolling_Volatility := [], Z_Score := [], Cumulative_Return := [] } := by
  subst hb
  have hc : b.close ≠ 0 := ne_of_gt hpos
  refine ⟨?_, ?_, ?_, ?_, ?_, ?_, rfl⟩ <;>
    simp [calcIndicators, closesOf, ewmMean, emaAux, pctChange, pctAux,
      rollingVolSq, rollingAt, zscoreCol, signedSq, cumulativeReturn,
      cumprodAux, portfolioEntry, calcSharpe, meanOpt, sampleVarOpt, svar,
      calcMaxDrawdown, drawdowns, cummax, cummaxAux, riskFreeDefault,
      List.min?_cons, List.min?_nil, List.filterMap_cons, List.range_succ,
      hc]

/-- Witness for C1 (amended) at the concrete one-bar series. -/
theorem c1_no_length_validation_witness :
    (calcIndicators oneBarSeries).Daily_Returns = [none] ∧
    portfolioEntry oneBarSeries =
      { Total_Return := some none, Sharpe := none, Max_Drawdown := some 0 } := by
  have h := c1_no_length_validation oneBarSeries (mkBar 0 100) rfl
    (by norm_num [mkBar])
  exact ⟨h.2.1, h.2.2.2.2.2.1⟩

/-! ## Claim C8 -/

/-- C8 as stated is false on the code: `calculate_advanced_indicators`
never inspects the DataFrame index, and no `InvalidSeries` error exists in
`src/main.py`.  On a series whose timestamp at index 5 duplicates the one
at index 4, the pipeline computes every indicator column as usual instead
of rejecting the input. -/
theorem c8_counterexample :
    dupStampSeries.map PriceBar.timestamp = [0, 1, 2, 3, 4, 4, 5] ∧
    dupStampSeries[4]?.map PriceBar.timestamp =
      dupStampSeries[5]?.map PriceBar.timestamp ∧
    (calcIndicators dupStampSeries).EMA_20 = List.replicate 7 100 ∧
    (calcIndicators dupStampSeries).Daily_Returns =
      [none, some 0, some 0, some 0, some 0, some 0, some 0] := by
  have hcl : closesOf dupStampSeries = List.replicate 7 100 := by
    norm_num [closesOf, dupStampSeries, mkBar]
    rfl
  refine ⟨by norm_num [dupStampSeries, mkBar], by norm_num [dupStampSeries, mkBar], ?_, ?_⟩
  · show ewmMean 20 (closesOf dupStampSeries) = List.replicate 7 100
    rw [hcl, ewmMean_const]
  · show pctChange (closesOf dupStampSeries) =
      [none, some 0, some 0, some 0, some 0, some 0, some 0]
    norm_num [closesOf, dupStampSeries, mkBar, pctChange, pctAux]

/-- C8 (amended): the pipeline performs no timestamp validation at all —
the indicator columns are a function of the `Close` column alone, so any
two series with the same closes (monotonic timestamps or not, duplicates
or not) yield identical indicator columns, each as long as the input. -/
theorem c8_no_timestamp_validation (bars bars2 : List PriceBar)
    (h : closesOf bars = closesOf bars2) :
    (calcIndicators bars).EMA_20 = (calcIndicators bars2).EMA_20 ∧
    (calcIndicators bars).EMA_50 = (calcIndicators bars2).EMA_50 ∧
    (calcIndicators bars).MACD_Line = (calcIndicators bars2).MACD_Line ∧
    (calcIndicators bars).Signal_Line = (calcIndicators bars2).Signal_Line ∧
    (calcIndicators bars).MACD_Histogram =
      (calcIndicators bars2).MACD_Histogram ∧
    (calcIndicators bars).Daily_Returns =
      (calcIndicators bars2).Daily_Returns ∧
    (calcIndicators bars).Rolling_Volatility =
      (calcIndicators bars2).Rolling_Volatility ∧
    (calcIndicators bars).Z_Score = (calcIndicators bars2).Z_Score ∧
    (calcIndicators bars).Cumulative_Return =
      (calcIndicators bars2).Cumulative_Return ∧
    (calcIndicators bars).EMA_20.length = bars.length := by
  have h2 : List.map PriceBar.close bars = List.map PriceBar.close bars2 := h
  refine ⟨?_, ?_, ?_, ?_, ?_, ?_, ?_, ?_, ?_,
    by simp [calcIndicators, length_ewmMean, closesOf]⟩ <;>
    (simp only [calcIndicators]; rw [h])

/-- Witness for C8 (amended): the duplicate-timestamp series and a clean
ascending-timestamp series with the same closes get identical columns. -/
theorem c8_no_timestamp_validation_witness :
    (calcIndicators dupStampSeries).EMA_20 =
      (calcIndicators (constSeries 100 7)).EMA_20 ∧
    (calcIndicators dupStampSeries).EMA_20.length = dupStampSeries.length := by
  have h := c8_no_timestamp_validation dupStampSeries (constSeries 100 7)
    (by
      rw [closesOf_constSeries]
      norm_num [closesOf, dupStampSeries, mkBar]
      rfl)
  exact ⟨h.1, h.2.2.2.2.2.2.2.2.2⟩

/-! ## Claim C3 -/

theorem macdLine_take (k : ℕ) (xs : List ℚ) :
    (macdLine xs).take k = macdLine (xs.take k) := by
  simp only [macdLine]
  rw [List.take_zipWith, ewmMean_take, ewmMean_take]

theorem signalLine_take (k : ℕ) (xs : List ℚ) :
    (signalLine xs).take k = signalLine (xs.take k) := by
  simp only [signalLine]
  rw [ewmMean_take, macdLine_take]

theorem macdHistogram_take (k : ℕ) (xs : List ℚ) :
    (macdHistogram xs).take k = macdHistogram (xs.take k) := by
  simp only [macdHistogram]
  rw [List.take_zipWith, macdLine_take, signalLine_take]

theorem rollingAt_congr (w : ℕ) {xs ys : List (Option ℚ)} (i : ℕ)
    (h : xs.take (i + 1) = ys.take (i + 1)) :
    rollingAt w xs i = rollingAt w ys i := by
  unfold rollingAt
  rw [h]

theorem rollingVolSq_getElem (w : ℕ) (xs : List (Option ℚ)) (i : ℕ)
    (h : i < xs.length) :
    (rollingVolSq w xs)[i]? = some (rollingAt w xs i) := by
  simp [rollingVolSq, List.getElem?_map, List.getElem?_range h]

theorem causal_of_take_comm {β : Type} (F : List ℚ → List β)
    (hF : ∀ (k : ℕ) (xs : List ℚ), (F xs).take k = F (xs.take k))
    {xs ys : List ℚ} (i : ℕ) (h : xs.take (i + 1) = ys.take (i + 1)) :
    (F xs)[i]? = (F ys)[i]? :=
  getElem?_eq_of_take_succ_eq (by rw [hF, hF, h])

/-- C3 (amended): every indicator column except `Z_Score` is causal — its
value at index `i` is determined by the price bars at indices ≤ `i`.
`Z_Score` is excluded because `stats.zscore` standardizes by the mean and
standard deviation of the entire series (see the counterexample). -/
theorem c3_no_lookahead (p q : List PriceBar) (i : ℕ)
    (hp : i < p.length) (hq : i < q.length)
    (h : p.take (i + 1) = q.take (i + 1)) :
    (calcIndicators p).EMA_20[i]? = (calcIndicators q).EMA_20[i]? ∧
    (calcIndicators p).EMA_50[i]? = (calcIndicators q).EMA_50[i]? ∧
    (calcIndicators p).MACD_Line[i]? = (calcIndicators q).MACD_Line[i]? ∧
    (calcIndicators p).Signal_Line[i]? =
      (calcIndicators q).Signal_Line[i]? ∧
    (calcIndicators p).MACD_Histogram[i]? =
      (calcIndicators q).MACD_Histogram[i]? ∧
    (calcIndicators p).Daily_Returns[i]? =
      (calcIndicators q).Daily_Returns[i]? ∧
    (calcIndicators p).Rolling_Volatility[i]? =
      (calcIndicators q).Rolling_Volatility[i]? ∧
    (calcIndicators p).Cumulative_Return[i]? =
      (calcIndicators q).Cumulative_Return[i]? := by
  have hc : (closesOf p).take (i + 1) = (closesOf q).take (i + 1) := by
    simp only [closesOf]
    rw [← List.map_take, ← List.map_take, h]
  have hde : (pctChange (closesOf p)).take (i + 1) =
      (pctChange (closesOf q)).take (i + 1) := by
    rw [pctChange_take, pctChange_take, hc]
  refine ⟨?_, ?_, ?_, ?_, ?_, ?_, ?_, ?_⟩
  · exact causal_of_take_comm (ewmMean 20)
      (fun k xs => ewmMean_take 20 k xs) i hc
  · exact causal_of_take_comm (ewmMean 50)
      (fun k xs => ewmMean_take 50 k xs) i hc
  · exact causal_of_take_comm macdLine macdLine_take i hc
  · exact causal_of_take_comm signalLine signalLine_take i hc
  · exact causal_of_take_comm macdHistogram macdHistogram_take i hc
  · exact causal_of_take_comm pctChange
      (fun k xs => pctChange_take k xs) i hc
  · show (rollingVolSq 20 (pctChange (closesOf p)))[i]? =
      (rollingVolSq 20 (pctChange (closesOf q)))[i]?
    rw [rollingVolSq_getElem 20 _ i
        (by rw [length_pctChange]; simpa [closesOf] using hp),
      rollingVolSq_getElem 20 _ i
        (by rw [length_pctChange]; simpa [closesOf] using hq),
      rollingAt_congr 20 i hde]
  · exact causal_of_take_comm cumulativeReturn
      (fun k xs => cumulativeReturn_take k xs) i hc

/-- Witness for C3 (amended): two series agreeing on their first two bars
have identical causal-column values at index 1. -/
theorem c3_no_lookahead_witness :
    (calcIndicators zProbeA).EMA_20[1]? = (calcIndicators zProbeB).EMA_20[1]? ∧
    (calcIndicators zProbeA).Cumulative_Return[1]? =
      (calcIndicators zProbeB).Cumulative_Return[1]? := by
  have h := c3_no_lookahead zProbeA zProbeB 1
    (by norm_num [zProbeA]) (by norm_num [zProbeB]) rfl
  exact ⟨h.1, h.2.2.2.2.2.2.2⟩

/-- C3 as stated is false on the code: `Z_Score` is standardized over the
entire series (`stats.zscore`), so its value at index 0 depends on later
bars.  The series [1, 2, 3] and [1, 2, 100] agree on the bar at index 0
(indeed on the first two bars), yet their `Z_Score` values at index 0
differ — here in the signed-square representation, whose strict
monotonicity (`signedSq_strictMono`) makes it injective in the true float
z-score. -/
theorem c3_counterexample :
    zProbeA.take 1 = zProbeB.take 1 ∧
    (calcIndicators zProbeA).Z_Score[0]? = some (some (-(3 / 2 : ℚ))) ∧
    (calcIndicators zProbeB).Z_Score[0]? =
      some (some (-(5000 / 9703 : ℚ))) ∧
    (calcIndicators zProbeA).Z_Score[0]? ≠
      (calcIndicators zProbeB).Z_Score[0]? := by
  refine ⟨rfl, ?_, ?_, ?_⟩
  · norm_num [calcIndicators, zProbeA, mkBar, closesOf, zscoreCol, signedSq,
      abs_of_pos, abs_of_neg]
  · norm_num [calcIndicators, zProbeB, mkBar, closesOf, zscoreCol, signedSq,
      abs_of_pos, abs_of_neg]
  · norm_num [calcIndicators, zProbeA, zProbeB, mkBar, closesOf, zscoreCol,
      signedSq, abs_of_pos, abs_of_neg]
